import Mathlib

/-!
Verification of the `karolakvido` event-extraction pipeline
(`src/karolakvido/scraper.py`): a shallow embedding of the HTML parsing
heuristics, the date/time resolution cascade, the adaptive throttle state and
the retry/collection loops, together with theorems settling the specified
properties.

Conventions of the embedding:
* Python strings are `String` / `List Char`; the five module-level regular
  expressions are translated into explicit character-list matchers that mirror
  Python's leftmost, greedy-with-backtracking matching for those concrete
  patterns.
* `BeautifulSoup` documents are modelled as a tree type `Node`; the only
  library operations the scraper uses (`find_all`, `find`, `next_siblings`,
  `get_text(" ", strip=True)`) are given as pre-order traversals of that tree.
* Python `float` delays are modelled as `ℚ`; `datetime` values as a record of
  numeric fields validated exactly as `datetime.__init__` validates them
  (the timezone is a fixed constant and plays no role in any claim).
* Unbounded scanning/retry loops take an explicit fuel argument; every claim
  is stated so that it is insensitive to the fuel-exhaustion branch.
* The module imports only the `datetime` class, so its uses of `datetime.UTC`
  (`scraper.py` lines 81 and 83) raise `AttributeError`: the retry-hint
  parsing, the retry-wait computation and the collection loop model this
  uncaught crash explicitly (`CrashError`, `FetchOutcome.crash`,
  `LoopExit.crashed`) instead of a computed wait for HTTP-date headers.
-/

namespace Karolakvido

/-! ## Characters and strings -/

/-- ASCII whitespace as matched by the regex class `\s` and `str.split()` for
the inputs at hand. -/
def isSpaceChar (c : Char) : Bool :=
  c = ' ' || c = '\t' || c = '\n' || c = '\r' || c = '\x0b' || c = '\x0c'

/-- Numeric value of a decimal digit character. -/
def digitVal (c : Char) : Nat := c.toNat - 48

/-- Lowercasing as `str.lower()` performs it on the alphabet occurring on the
site: ASCII letters plus the Czech/Slovak accented capitals. -/
def pyLower (c : Char) : Char :=
  if 'A' ≤ c ∧ c ≤ 'Z' then Char.ofNat (c.toNat + 32)
  else if c = 'Á' then 'á' else if c = 'Ä' then 'ä'
  else if c = 'Č' then 'č' else if c = 'Ď' then 'ď'
  else if c = 'É' then 'é' else if c = 'Ě' then 'ě'
  else if c = 'Ë' then 'ë' else if c = 'Í' then 'í'
  else if c = 'Ľ' then 'ľ' else if c = 'Ĺ' then 'ĺ'
  else if c = 'Ň' then 'ň' else if c = 'Ó' then 'ó'
  else if c = 'Ô' then 'ô' else if c = 'Ö' then 'ö'
  else if c = 'Ř' then 'ř' else if c = 'Š' then 'š'
  else if c = 'Ť' then 'ť' else if c = 'Ú' then 'ú'
  else if c = 'Ů' then 'ů' else if c = 'Ü' then 'ü'
  else if c = 'Ý' then 'ý' else if c = 'Ž' then 'ž'
  else c

/-- `KarolAKvidoClient._strip_diacritics`: the fixed translation table mapping
the lowercase accented letters to their base letters. -/
def stripDiacriticsChar (c : Char) : Char :=
  if c = 'á' then 'a' else if c = 'ä' then 'a'
  else if c = 'č' then 'c' else if c = 'ď' then 'd'
  else if c = 'é' then 'e' else if c = 'ě' then 'e'
  else if c = 'ë' then 'e' else if c = 'í' then 'i'
  else if c = 'ľ' then 'l' else if c = 'ĺ' then 'l'
  else if c = 'ň' then 'n' else if c = 'ó' then 'o'
  else if c = 'ô' then 'o' else if c = 'ö' then 'o'
  else if c = 'ř' then 'r' else if c = 'š' then 's'
  else if c = 'ť' then 't' else if c = 'ú' then 'u'
  else if c = 'ů' then 'u' else if c = 'ü' then 'u'
  else if c = 'ý' then 'y' else if c = 'ž' then 'z'
  else c

def stripDiacritics (s : String) : String := ⟨s.data.map stripDiacriticsChar⟩

def lowerStr (s : String) : String := ⟨s.data.map pyLower⟩

/-- Substring test (`pat in s` on Python strings). -/
def charsContain (pat : List Char) : List Char → Bool
  | [] => pat.isEmpty
  | c :: rest => pat.isPrefixOf (c :: rest) || charsContain pat rest

def strContains (s pat : String) : Bool := charsContain pat.data s.data

/-- `str.strip()` restricted to the whitespace the pages contain. -/
def pyStrip (s : String) : String :=
  ⟨((s.data.dropWhile isSpaceChar).reverse.dropWhile isSpaceChar).reverse⟩

/-- `str.strip(", ")` as used on the joined location parts. -/
def stripCommaSpace (s : String) : String :=
  let mem := fun c => c = ',' || c = ' '
  ⟨((s.data.dropWhile mem).reverse.dropWhile mem).reverse⟩

/-- The words of a string (`str.split()` with no argument): maximal runs of
non-whitespace characters. -/
def splitWsAux (cur : List Char) : List Char → List (List Char)
  | [] => if cur.isEmpty then [] else [cur.reverse]
  | c :: rest =>
    if isSpaceChar c then
      if cur.isEmpty then splitWsAux [] rest
      else cur.reverse :: splitWsAux [] rest
    else splitWsAux (c :: cur) rest

/-- `KarolAKvidoClient._normalize_whitespace`: `" ".join(text.split())`. -/
def normalizeWhitespace (s : String) : String :=
  String.intercalate " " ((splitWsAux [] s.data).map (fun w => ⟨w⟩))

/-! ## Datetimes -/

/-- A resolved `datetime.datetime` (the timezone is the fixed
`ZoneInfo(TZ_NAME)` on every value, so it is omitted). -/
structure Datetime where
  year : Nat
  month : Nat
  day : Nat
  hour : Nat
  minute : Nat
deriving DecidableEq, Repr

/-- Lexicographic sort key corresponding to `datetime` comparison on valid
datetimes. -/
def Datetime.key (d : Datetime) : Nat :=
  60 * (24 * (32 * (13 * d.year + d.month) + d.day) + d.hour) + d.minute

def isLeapYear (y : Nat) : Bool :=
  y % 4 = 0 && (y % 100 ≠ 0 || y % 400 = 0)

def daysInMonth (y m : Nat) : Nat :=
  if m = 2 then (if isLeapYear y then 29 else 28)
  else if m = 4 || m = 6 || m = 9 || m = 11 then 30
  else 31

/-- Constructing `datetime(year, month, day, hour, minute)`: `none` models the
`ValueError` raised on out-of-range fields. -/
def mkDatetime (y m d h mi : Nat) : Option Datetime :=
  if 1 ≤ y ∧ y ≤ 9999 ∧ 1 ≤ m ∧ m ≤ 12 ∧ 1 ≤ d ∧ d ≤ daysInMonth y m
     ∧ h ≤ 23 ∧ mi ≤ 59 then
    some ⟨y, m, d, h, mi⟩
  else none

/-- The `_MONTHS` table: diacritics-stripped lowercase Czech month names in the
genitive. -/
def monthsLookup (s : String) : Option Nat :=
  if s = "ledna" then some 1 else if s = "unora" then some 2
  else if s = "brezna" then some 3 else if s = "dubna" then some 4
  else if s = "kvetna" then some 5 else if s = "cervna" then some 6
  else if s = "cervence" then some 7 else if s = "srpna" then some 8
  else if s = "zari" then some 9 else if s = "rijna" then some 10
  else if s = "listopadu" then some 11 else if s = "prosince" then some 12
  else none

/-- `KarolAKvidoClient._build_datetime`: month-name lookup after stripping
diacritics and lowercasing, then datetime construction; `none` models the
raised `ValueError`. -/
def buildDatetime (year : Nat) (month : String) (day hour minute : Nat) :
    Option Datetime :=
  match monthsLookup (lowerStr (stripDiacritics month)) with
  | none => none
  | some m => mkDatetime year m day hour minute

/-! ## The module-level regular expressions

Each matcher mirrors the corresponding compiled pattern of `scraper.py`,
specialised to Python's leftmost / greedy-with-backtracking semantics for that
concrete pattern.  Scanning loops (`finditer`-style) carry a fuel argument
that the callers instantiate with the input length plus one, which always
suffices because every match and every failed position consumes at least one
character. -/

/-- The character class `[A-Za-zÁ-ž]` of the month group. -/
def isMonthChar (c : Char) : Bool :=
  ('A' ≤ c && c ≤ 'Z') || ('a' ≤ c && c ≤ 'z')
    || (0xC1 ≤ c.toNat && c.toNat ≤ 0x17E)

/-- Word characters for the `\b` boundary (`[A-Za-z0-9_]` plus the accented
letters occurring in Czech text). -/
def isWordChar (c : Char) : Bool :=
  c.isAlphanum || c = '_' || (0xC0 ≤ c.toNat && c.toNat ≤ 0x17F)

/-- `\b` relative to the character preceding the current position (`none` at
the start of the string). -/
def prevNonWord : Option Char → Bool
  | none => true
  | some c => !isWordChar c

/-- `\b` relative to the remaining input after a match. -/
def headNonWord : List Char → Bool
  | [] => true
  | c :: _ => !isWordChar c

def dropSpaces (s : List Char) : List Char := s.dropWhile isSpaceChar

/-- `(?P<day>\d{1,2})\.` — greedy one-or-two digits followed by a literal
dot (greedy two digits, falling back to one when no dot follows). -/
def matchDayDot : List Char → Option (Nat × List Char)
  | c1 :: c2 :: c3 :: rest =>
    if c1.isDigit && c2.isDigit then
      if c3 = '.' then some (10 * digitVal c1 + digitVal c2, rest) else none
    else if c1.isDigit && c2 = '.' then some (digitVal c1, c3 :: rest)
    else none
  | [c1, c2] =>
    if c1.isDigit && c2 = '.' then some (digitVal c1, ([] : List Char))
    else none
  | _ => none

/-- `(?P<month>[A-Za-zÁ-ž]+)` — a maximal nonempty run of month letters. -/
def matchMonthRun (s : List Char) : Option (String × List Char) :=
  let run := s.takeWhile isMonthChar
  if run.isEmpty then none else some (⟨run⟩, s.drop run.length)

/-- `(?P<year>\d{4})`. -/
def matchYear4 : List Char → Option (Nat × List Char)
  | a :: b :: c :: d :: rest =>
    if a.isDigit && b.isDigit && c.isDigit && d.isDigit then
      some (1000 * digitVal a + 100 * digitVal b + 10 * digitVal c
        + digitVal d, rest)
    else none
  | _ => none

/-- `(?P<hour>\d{1,2})` — greedy. -/
def matchHour : List Char → Option (Nat × List Char)
  | c1 :: c2 :: rest =>
    if c1.isDigit then
      if c2.isDigit then some (10 * digitVal c1 + digitVal c2, rest)
      else some (digitVal c1, c2 :: rest)
    else none
  | [c1] => if c1.isDigit then some (digitVal c1, ([] : List Char)) else none
  | [] => none

/-- `(?::(?P<minute>\d{2}))?` — consumed only when a colon with two digits
follows. -/
def matchMinuteOpt : List Char → Option Nat × List Char
  | ':' :: a :: b :: rest =>
    if a.isDigit && b.isDigit then (some (10 * digitVal a + digitVal b), rest)
    else (none, ':' :: a :: b :: rest)
  | s => (none, s)

/-- `(?:\s*hodin)?` — case-insensitively. -/
def matchHodinOpt (s : List Char) : List Char :=
  match dropSpaces s with
  | h :: o :: d :: i :: n :: rest =>
    if pyLower h = 'h' && pyLower o = 'o' && pyLower d = 'd'
        && pyLower i = 'i' && pyLower n = 'n' then rest
    else s
  | _ => s

/-- `(?P<hour>\d{1,2})(?::(?P<minute>\d{2}))?(?:\s*hodin)?`. -/
def matchTimeTail (s : List Char) : Option (Nat × Option Nat × List Char) :=
  match matchHour s with
  | none => none
  | some (h, s1) =>
    let (mi, s2) := matchMinuteOpt s1
    some (h, mi, matchHodinOpt s2)

/-- `\s*,?\s*(?:(?:v|ve)\s*)?` followed by the time tail, with the
`v`-then-`ve`-then-empty alternation order of the Python engine. -/
def matchTimePart (s : List Char) : Option (Nat × Option Nat × List Char) :=
  let s1 := dropSpaces s
  let s2 := match s1 with
    | ',' :: r => dropSpaces r
    | _ => s1
  match s2 with
  | c :: r =>
    if pyLower c = 'v' then
      match matchTimeTail (dropSpaces r) with
      | some res => some res
      | none =>
        match r with
        | e :: r2 =>
          if pyLower e = 'e' then
            match matchTimeTail (dropSpaces r2) with
            | some res => some res
            | none => matchTimeTail s2
          else matchTimeTail s2
        | [] => matchTimeTail s2
    else matchTimeTail s2
  | [] => none

/-- One attempted match of `_DATETIME_RE` at the current position, returning
the captured groups and the input remaining after the match. -/
def matchWithYearAt (s : List Char) :
    Option ((Nat × String × Nat × Nat × Option Nat) × List Char) :=
  match matchDayDot s with
  | none => none
  | some (day, s1) =>
    match matchMonthRun (dropSpaces s1) with
    | none => none
    | some (mon, s2) =>
      match matchYear4 (dropSpaces s2) with
      | none => none
      | some (yr, s3) =>
        match matchTimePart s3 with
        | none => none
        | some (h, mi, s4) => some ((day, mon, yr, h, mi), s4)

/-- One attempted match of `_DATETIME_WITHOUT_YEAR_RE` at the current
position. -/
def matchNoYearAt (s : List Char) :
    Option ((Nat × String × Nat × Option Nat) × List Char) :=
  match matchDayDot s with
  | none => none
  | some (day, s1) =>
    match matchMonthRun (dropSpaces s1) with
    | none => none
    | some (mon, s2) =>
      match matchTimePart s2 with
      | none => none
      | some (h, mi, s3) => some ((day, mon, h, mi), s3)

/-- `KarolAKvidoClient._find_valid_datetime_with_year`: iterate the matches of
`_DATETIME_RE`, returning the first that builds a valid datetime; a
`ValueError` (unknown month or invalid date) skips to the next match. -/
def scanWithYear : Nat → List Char → Option Datetime
  | 0, _ => none
  | _, [] => none
  | fuel + 1, c :: rest =>
    match matchWithYearAt (c :: rest) with
    | some ((day, mon, yr, h, mi), after) =>
      match buildDatetime yr mon day h (mi.getD 0) with
      | some d => some d
      | none => scanWithYear fuel after
    | none => scanWithYear fuel rest

def findValidDatetimeWithYear (text : String) : Option Datetime :=
  scanWithYear (text.data.length + 1) text.data

/-- `_YEAR_RE` (`\b(?P<year>20\d{2})\b`) at the current position. -/
def yearTokenAt (prev : Option Char) : List Char → Option Nat
  | '2' :: '0' :: c :: d :: rest =>
    if prevNonWord prev && c.isDigit && d.isDigit && headNonWord rest then
      some (2000 + 10 * digitVal c + digitVal d)
    else none
  | _ => none

/-- `_YEAR_RE.search`: the first year-like token in the text. -/
def firstYearAux : Option Char → List Char → Option Nat
  | _, [] => none
  | prev, c :: rest =>
    match yearTokenAt prev (c :: rest) with
    | some y => some y
    | none => firstYearAux (some c) rest

def firstYearToken (s : String) : Option Nat := firstYearAux none s.data

/-- Scanning loop of `_find_valid_datetime_without_year` with the borrowed
year fixed. -/
def scanNoYear (yr : Nat) : Nat → List Char → Option Datetime
  | 0, _ => none
  | _, [] => none
  | fuel + 1, c :: rest =>
    match matchNoYearAt (c :: rest) with
    | some ((day, mon, h, mi), after) =>
      match buildDatetime yr mon day h (mi.getD 0) with
      | some d => some d
      | none => scanNoYear yr fuel after
    | none => scanNoYear yr fuel rest

/-- `KarolAKvidoClient._find_valid_datetime_without_year`: the year is the
first `_YEAR_RE` token of the whole-page text; without one the strategy
fails. -/
def findValidDatetimeWithoutYear (text fullText : String) : Option Datetime :=
  match firstYearToken fullText with
  | none => none
  | some yr => scanNoYear yr (text.data.length + 1) text.data

/-- `_TIME_RE` (`\b(?P<hour>\d{1,2})[:\.](?P<minute>\d{2})\b`) at the current
position. -/
def isTimeSep (c : Char) : Bool := c = ':' || c = '.'

def matchTimeAt (prev : Option Char) (s : List Char) : Option (Nat × Nat) :=
  if prevNonWord prev then
    match s with
    | c1 :: c2 :: rest =>
      if c1.isDigit && c2.isDigit then
        match rest with
        | c3 :: c4 :: c5 :: rest2 =>
          if isTimeSep c3 && c4.isDigit && c5.isDigit && headNonWord rest2 then
            some (10 * digitVal c1 + digitVal c2,
              10 * digitVal c4 + digitVal c5)
          else none
        | _ => none
      else if c1.isDigit && isTimeSep c2 then
        match rest with
        | c3 :: c4 :: rest2 =>
          if c3.isDigit && c4.isDigit && headNonWord rest2 then
            some (digitVal c1, 10 * digitVal c3 + digitVal c4)
          else none
        | _ => none
      else none
    | _ => none
  else none

/-- `_TIME_RE.search` over a window (the window is a fresh string, so its
start is a boundary). -/
def timeSearchAux : Option Char → List Char → Option (Nat × Nat)
  | _, [] => none
  | prev, c :: rest =>
    match matchTimeAt prev (c :: rest) with
    | some hm => some hm
    | none => timeSearchAux (some c) rest

def timeSearch (window : List Char) : Option (Nat × Nat) :=
  timeSearchAux none window

/-- One attempted match of `_NUMERIC_DATE_RE`
(`\b(?P<day>\d{1,2})\.(?P<month>\d{1,2})\.(?P<year>20\d{2})\b`). -/
def matchNumericAt (prev : Option Char) (s : List Char) :
    Option (Nat × Nat × Nat × List Char) :=
  if prevNonWord prev then
    match matchDayDot s with
    | none => none
    | some (day, s1) =>
      match matchDayDot s1 with
      | none => none
      | some (mon, s2) =>
        match s2 with
        | '2' :: '0' :: c :: d :: rest =>
          if c.isDigit && d.isDigit && headNonWord rest then
            some (day, mon, 2000 + 10 * digitVal c + digitVal d, rest)
          else none
        | _ => none
  else none

/-- `KarolAKvidoClient._find_valid_numeric_date`: iterate numeric-date
matches; the time comes from the first `_TIME_RE` match within the following
48 characters, defaulting to `0:00`; an invalid date skips to the next
match. -/
def scanNumeric : Nat → Option Char → List Char → Option Datetime
  | 0, _, _ => none
  | _, _, [] => none
  | fuel + 1, prev, c :: rest =>
    match matchNumericAt prev (c :: rest) with
    | some (day, mon, yr, after) =>
      let hm := (timeSearch (after.take 48)).getD (0, 0)
      match mkDatetime yr mon day hm.1 hm.2 with
      | some d => some d
      | none => scanNumeric fuel (some (Char.ofNat (48 + yr % 10))) after
    | none => scanNumeric fuel (some c) rest

def findValidNumericDate (fullText : String) : Option Datetime :=
  scanNumeric (fullText.data.length + 1) none fullText.data

/-! ## The document tree

`BeautifulSoup` documents are modelled as a list of top-level nodes; a node is
an element with a tag name, attributes and children, or a navigable string.
The traversals below are the pre-order walks the library performs for
`find_all` / `find`, and `next_siblings` is the tail of the parent's child
list after the found node. -/

inductive Node where
  | elem (name : String) (attrs : List (String × String)) (children : List Node)
  | text (s : String)
deriving Repr

def nodeName : Node → Option String
  | .elem n _ _ => some n
  | .text _ => none

def getAttr (n : Node) (key : String) : Option String :=
  match n with
  | .elem _ attrs _ => attrs.lookup key
  | .text _ => none

mutual
def nodeTexts : Node → List String
  | .text s => [s]
  | .elem _ _ cs => nodesTexts cs
def nodesTexts : List Node → List String
  | [] => []
  | n :: ns => nodeTexts n ++ nodesTexts ns
end

/-- `tag.get_text(" ", strip=True)`: every descendant string stripped, the
empty ones skipped, the rest joined with a single space. -/
def getTextSpaceStrip (n : Node) : String :=
  String.intercalate " " (((nodeTexts n).map pyStrip).filter (fun s => s ≠ ""))

/-- `soup.get_text(" ", strip=True)` over the whole document. -/
def getTextAll (doc : List Node) : String :=
  String.intercalate " " (((nodesTexts doc).map pyStrip).filter (fun s => s ≠ ""))

def isHeading23 : Node → Bool
  | .elem n _ _ => n = "h2" || n = "h3"
  | .text _ => false

/-- The `find_all` / `find` predicate for the "kdy" (when) headings. -/
def isWhenHeading (n : Node) : Bool :=
  isHeading23 n && strContains (lowerStr (getTextSpaceStrip n)) "kdy"

/-- The `find` predicate for the "kde" (where) heading. -/
def isWhereHeading (n : Node) : Bool :=
  isHeading23 n && strContains (lowerStr (getTextSpaceStrip n)) "kde"

/- `soup.find_all(...)` for the "kdy" headings, with each heading's
`next_siblings` tail, in pre-order document order. -/
mutual
def whenBlocksN : Node → List (List Node)
  | .text _ => []
  | .elem _ _ cs => whenBlocksL cs
def whenBlocksL : List Node → List (List Node)
  | [] => []
  | n :: rest =>
    (if isWhenHeading n then [rest] else []) ++ whenBlocksN n ++ whenBlocksL rest
end

/-- The `search_text` accumulation over a heading's next siblings: stop at the
next `h2`/`h3`, append `" " + get_text` for tags and `" " + normalized` for
strings. -/
def blockSearchText : List Node → String
  | [] => ""
  | n :: rest =>
    if isHeading23 n then ""
    else
      match n with
      | .elem nm a cs => " " ++ getTextSpaceStrip (.elem nm a cs) ++ blockSearchText rest
      | .text s => " " ++ normalizeWhitespace s ++ blockSearchText rest

/-- The per-heading loop of `_extract_datetime`: skip empty blocks, try the
with-year pattern on the block, then the without-year pattern (borrowing the
year from the whole-page text). -/
def kdyLoop (fullText : String) : List String → Option Datetime
  | [] => none
  | b :: rest =>
    if b = "" then kdyLoop fullText rest
    else
      match findValidDatetimeWithYear b with
      | some d => some d
      | none =>
        match findValidDatetimeWithoutYear b fullText with
        | some d => some d
        | none => kdyLoop fullText rest

/-- `KarolAKvidoClient._extract_datetime`: the "kdy"-block strategies, then
the whole-page with-year pattern, then the whole-page numeric date; exhaustion
raises `ValueError` (modelled by `Except.error`). -/
def extractDatetime (soup : List Node) : Except String Datetime :=
  let fullText := getTextAll soup
  match kdyLoop fullText ((whenBlocksL soup).map blockSearchText) with
  | some d => .ok d
  | none =>
    match findValidDatetimeWithYear fullText with
    | some d => .ok d
    | none =>
      match findValidNumericDate fullText with
      | some d => .ok d
      | none => .error "Nelze najít datum a čas akce."

/-- Modelled from the spec (§4.3, "Date/time resolution cascade, tried in
order, first success wins"), for a page with a single "kdy" block: block text
with explicit year, then block text with borrowed year, then whole-page text
with explicit year, then whole-page numeric date, else "no date found". -/
def specDateCascade (block fullText : String) : Except String Datetime :=
  match findValidDatetimeWithYear block with
  | some d => .ok d
  | none =>
    match findValidDatetimeWithoutYear block fullText with
    | some d => .ok d
    | none =>
      match findValidDatetimeWithYear fullText with
      | some d => .ok d
      | none =>
        match findValidNumericDate fullText with
        | some d => .ok d
        | none => .error "Nelze najít datum a čas akce."

/- `soup.find(...)` for the "kde" heading: first match in pre-order, paired
with its `next_siblings` tail. -/
mutual
def whereSibsN : Node → Option (List Node)
  | .text _ => none
  | .elem _ _ cs => whereSibsL cs
def whereSibsL : List Node → Option (List Node)
  | [] => none
  | n :: rest =>
    if isWhereHeading n then some rest
    else
      match whereSibsN n with
      | some r => some r
      | none => whereSibsL rest
end

/-- The `location_parts` accumulation: stop at the next `h2`/`h3`, keep the
nonempty texts of sibling tags and strings. -/
def locationParts : List Node → List String
  | [] => []
  | n :: rest =>
    if isHeading23 n then []
    else
      match n with
      | .elem nm a cs =>
        let t := getTextSpaceStrip (.elem nm a cs)
        if t = "" then locationParts rest else t :: locationParts rest
      | .text s =>
        let t := normalizeWhitespace s
        if t = "" then locationParts rest else t :: locationParts rest

/-- The heading-derived location: the parts joined with `", "` and stripped of
leading/trailing commas and spaces; `""` when there is no "kde" heading. -/
def locFromWhere (soup : List Node) : String :=
  match whereSibsL soup with
  | none => ""
  | some sibs => stripCommaSpace (String.intercalate ", " (locationParts sibs))

/-- The `if city: return city / return "Neuvedeno"` fallback (`None` and the
empty string are both falsy). -/
def cityFallback : Option String → String
  | some c => if c = "" then "Neuvedeno" else c
  | none => "Neuvedeno"

/-- `KarolAKvidoClient._extract_location`. -/
def extractLocation (soup : List Node) (city : Option String) : String :=
  let l := locFromWhere soup
  if l = "" then cityFallback city else l

/- `soup.find("h1")` in pre-order. -/
mutual
def findH1N : Node → Option Node
  | .text _ => none
  | .elem nm a cs =>
    if nm = "h1" then some (.elem nm a cs) else findH1L cs
def findH1L : List Node → Option Node
  | [] => none
  | n :: rest =>
    match findH1N n with
    | some h => some h
    | none => findH1L rest
end

/-- `KarolAKvidoClient._extract_title`. -/
def extractTitle (soup : List Node) : Option String :=
  match findH1L soup with
  | none => none
  | some h =>
    let t := getTextSpaceStrip h
    if t = "" then none else some t

/-! ## Listing extraction (`parse_events`) -/

/-- A listing candidate (the `{"title", "detail_url", "city"}` dict). -/
structure Cand where
  title : String
  detail_url : String
  city : String
deriving DecidableEq, Repr

/-- Modelled from the stdlib: `urllib.parse.urljoin` restricted to the shapes
the listing pages contain (absolute hrefs, host-relative hrefs, and relative
hrefs resolved against the base's directory). -/
def breakAtSub (pat : List Char) : List Char → Option (List Char × List Char)
  | [] => if pat.isEmpty then some ([], []) else none
  | c :: rest =>
    if pat.isPrefixOf (c :: rest) then some ([], (c :: rest).drop pat.length)
    else
      match breakAtSub pat rest with
      | some (p, s) => some (c :: p, s)
      | none => none

def schemeAndHost (base : String) : String :=
  match breakAtSub "://".data base.data with
  | some (pre, rest) => ⟨pre ++ "://".data ++ rest.takeWhile (fun c => c ≠ '/')⟩
  | none => base

def upToLastSlash (base : String) : String :=
  ⟨(base.data.reverse.dropWhile (fun c => c ≠ '/')).reverse⟩

def urljoinModel (base href : String) : String :=
  if href = "" then base
  else if "http://".data.isPrefixOf href.data
      || "https://".data.isPrefixOf href.data then href
  else if "/".data.isPrefixOf href.data then schemeAndHost base ++ href
  else upToLastSlash base ++ href

/- `soup.find_all(["h3", "h5"])` in pre-order. -/
mutual
def headingsN : Node → List Node
  | .text _ => []
  | .elem nm a cs =>
    (if nm = "h3" || nm = "h5" then [Node.elem nm a cs] else []) ++ headingsL cs
def headingsL : List Node → List Node
  | [] => []
  | n :: rest => headingsN n ++ headingsL rest
end

/- `heading.find_all("a", href=True)`: anchor descendants carrying an `href`
attribute, in pre-order. -/
mutual
def anchorsN : Node → List Node
  | .text _ => []
  | .elem nm a cs =>
    (if nm = "a" && ((a.lookup "href").isSome) then [Node.elem nm a cs] else [])
      ++ anchorsL cs
def anchorsL : List Node → List Node
  | [] => []
  | n :: rest => anchorsN n ++ anchorsL rest
end

/-- `heading.find_all` searches descendants only, so the anchors of a heading
are collected from its children. -/
def anchorsOf : Node → List Node
  | .text _ => []
  | .elem _ _ cs => anchorsL cs

/-- The per-link acceptance of `parse_events`: nonempty stripped href, joined
URL on the site's domain matching one of the two event-path patterns, nonempty
link text. -/
def linkCand (baseUrl : String) (city : Option String) (link : Node) :
    Option Cand :=
  match getAttr link "href" with
  | none => none
  | some href0 =>
    let href := pyStrip href0
    if href = "" then none
    else
      let full := urljoinModel baseUrl href
      if !strContains full "karolakvido.cz" then none
      else if !(strContains full "/akce_karol_a_kvido/"
          || strContains full "karol-a-kvido-slavi") then none
      else
        let title := getTextSpaceStrip link
        if title = "" then none
        else some ⟨title, full, city.getD ""⟩

/-- The heading loop of `parse_events`: an `h3` updates the tracked city (its
text, or `None` when empty), an `h5` contributes its accepted links. -/
def candLoop (baseUrl : String) : Option String → List Node → List Cand
  | _, [] => []
  | city, h :: rest =>
    if nodeName h = some "h3" then
      let t := getTextSpaceStrip h
      candLoop baseUrl (if t = "" then none else some t) rest
    else
      (anchorsOf h).filterMap (linkCand baseUrl city) ++ candLoop baseUrl city rest

/-- The candidate list of `parse_events` before deduplication, in document
order. -/
def listingCandidates (soup : List Node) (baseUrl : String) : List Cand :=
  candLoop baseUrl none (headingsL soup)

/-- One assignment `deduplicated[event["detail_url"]] = event` into an
insertion-ordered dict. -/
def dedupInsert (acc : List Cand) (e : Cand) : List Cand :=
  if acc.any (fun x => x.detail_url = e.detail_url) then
    acc.map (fun x => if x.detail_url = e.detail_url then e else x)
  else acc ++ [e]

/-- `dict` deduplication: first-occurrence key order, last-seen value wins. -/
def dedupLastWins (l : List Cand) : List Cand := l.foldl dedupInsert []

/-- `KarolAKvidoClient.parse_events`. -/
def parseEvents (soup : List Node) (baseUrl : String) : List Cand :=
  dedupLastWins (listingCandidates soup baseUrl)

/-! ## The fetch client

Delays are Python floats, modelled as `ℚ`.  The mutable fields of
`KarolAKvidoClient` that the throttling logic touches are gathered into
`ClientState`. -/

structure ClientState where
  requestDelay : ℚ
  maxRequestDelay : ℚ
  adaptiveBackoffFactor : ℚ
  currentDelay : ℚ
deriving DecidableEq, Repr

/-- `KarolAKvidoClient.__init__`: the base delay is clamped to be
nonnegative, the maximum to be at least the base, the factor to be at least
one; the current delay starts at the base. -/
def initClient (requestDelay maxRequestDelay adaptiveBackoffFactor : ℚ) :
    ClientState :=
  let rd := max 0 requestDelay
  { requestDelay := rd
    maxRequestDelay := max rd maxRequestDelay
    adaptiveBackoffFactor := max 1 adaptiveBackoffFactor
    currentDelay := rd }

/-- `KarolAKvidoClient._increase_delay_after_429`: a nonpositive current delay
is reset to `request_delay or 1.0` (Python `or`: `1.0` when the base is the
falsy `0.0`), otherwise the current delay is multiplied by the backoff factor;
the result is capped at the maximum. -/
def increaseDelayAfter429 (st : ClientState) : ClientState :=
  let d := if st.currentDelay ≤ 0 then
      (if st.requestDelay = 0 then 1 else st.requestDelay)
    else st.currentDelay * st.adaptiveBackoffFactor
  { st with currentDelay := min d st.maxRequestDelay }

/-- `KarolAKvidoClient._relax_delay_after_success`: snap up to the base when
at or below it, otherwise decay by `0.9` floored at the base. -/
def relaxDelayAfterSuccess (st : ClientState) : ClientState :=
  { st with currentDelay :=
      if st.currentDelay ≤ st.requestDelay then st.requestDelay
      else max st.requestDelay (st.currentDelay * (9 / 10)) }

/-- A `Retry-After` header as `_parse_retry_after_seconds` distinguishes the
cases at the standard-library boundary: absent (or empty after stripping), a
digit string, a value `parsedate_to_datetime` parses as an HTTP-date, or a
value neither digits nor a parseable date. -/
inductive RetryAfterHeader where
  | absent
  | seconds (n : Nat)
  | httpDate
  | malformed
deriving DecidableEq, Repr

/-- The uncaught exception the retry-hint parsing raises beyond request
errors: the module imports only the `datetime` class
(`from datetime import datetime`), and `datetime.UTC` names an attribute of
the `datetime` module, not of the class, so lines 81 and 83 of `scraper.py`
raise `AttributeError` whenever they are reached. -/
inductive CrashError where
  | attributeError
deriving DecidableEq, Repr

/-- `_parse_retry_after_seconds`: digit strings parse as seconds and
absent/empty/unparseable headers give `None`, but every header that parses as
an HTTP-date reaches `datetime.UTC` (line 81 for naive dates, line 83 for
timezone-aware ones) before any seconds are computed, and the call raises
`AttributeError`. -/
def parseRetryAfterSeconds : RetryAfterHeader → Except CrashError (Option ℚ)
  | .absent => .ok none
  | .seconds n => .ok (some n)
  | .httpDate => .error .attributeError
  | .malformed => .ok none

/-- The exceptions `_should_retry_http_error` discriminates.  An
`HTTPError` carries its response's status (`none` when the response is
missing) and `Retry-After` header. -/
inductive ReqError where
  | timeout
  | connError
  | httpError (status : Option Nat) (retryAfter : RetryAfterHeader)
  | otherError
deriving DecidableEq, Repr

/-- `_should_retry_http_error`. -/
def shouldRetryHttpError : ReqError → Bool
  | .timeout => true
  | .connError => true
  | .httpError none _ => false
  | .httpError (some s) _ => s = 429 || 500 ≤ s
  | .otherError => false

/-- `tenacity.wait_exponential(multiplier=1, min=1, max=8)` evaluated at the
1-based number of the attempt that just failed. -/
def waitExponentialVal (attemptNumber : Nat) : ℚ :=
  max 1 (min ((2 : ℚ) ^ attemptNumber) 8)

/-- `_wait_before_retry`: the bounded exponential backoff, raised to
`min(retry_after, 90)` when the failure is an HTTP 429 carrying a usable
`Retry-After` hint (`none` for the outcome models a non-failed outcome); the
`AttributeError` that `_parse_retry_after_seconds` raises for an HTTP-date
header propagates out of the wait computation uncaught. -/
def waitBeforeRetry (attemptNumber : Nat) (outcome : Option ReqError) :
    Except CrashError ℚ :=
  let defaultWait := waitExponentialVal attemptNumber
  match outcome with
  | some (.httpError (some s) ra) =>
    if s = 429 then
      match parseRetryAfterSeconds ra with
      | .ok (some retryAfter) => .ok (max defaultWait (min retryAfter 90))
      | .ok none => .ok defaultWait
      | .error c => .error c
    else .ok defaultWait
  | _ => .ok defaultWait

/-- What one underlying HTTP request does: either `session.get` raises
(timeout/connection error), or a response with a status, body and
`Retry-After` header arrives. -/
inductive AttemptResult where
  | raised (e : ReqError)
  | response (status : Nat) (body : String) (retryAfter : RetryAfterHeader)

/-- The body of `fetch_text` for one attempt: a 429 status escalates the
throttle delay; `raise_for_status` turns 4xx/5xx statuses into `HTTPError`;
a successful response relaxes the delay and yields the body. -/
def fetchAttempt (st : ClientState) (r : AttemptResult) :
    ClientState × Except ReqError String :=
  match r with
  | .raised e => (st, .error e)
  | .response status body ra =>
    let st1 := if status = 429 then increaseDelayAfter429 st else st
    if 400 ≤ status ∧ status < 600 then
      (st1, .error (.httpError (some status) ra))
    else (relaxDelayAfterSuccess st1, .ok body)

/-- How a `fetch_text` call can end: a body on success, a surfaced request
exception when retries are exhausted or the error is not retryable, or an
uncaught `AttributeError` escaping from the between-attempt wait
computation. -/
inductive FetchOutcome where
  | body (s : String)
  | reqError (e : ReqError)
  | crash (c : CrashError)
deriving DecidableEq, Repr

/-- The `tenacity` driver of `fetch_text` with
`stop=stop_after_attempt(5), reraise=True`: `remaining` further attempts are
allowed after the current one; `attemptNumber` is 1-based.  After a failed
attempt that is retryable and not the last allowed one, the driver evaluates
`_wait_before_retry` before sleeping; an exception raised there (the
HTTP-date `AttributeError`) propagates out of `fetch_text` immediately.
Returns the final state, the outcome, and the total number of attempts
made. -/
def fetchRetryGo (responses : Nat → AttemptResult) :
    Nat → Nat → ClientState → ClientState × FetchOutcome × Nat
  | 0, attemptNumber, st =>
    match (fetchAttempt st (responses attemptNumber)).2 with
    | .ok body =>
      ((fetchAttempt st (responses attemptNumber)).1, .body body, attemptNumber)
    | .error e =>
      ((fetchAttempt st (responses attemptNumber)).1, .reqError e, attemptNumber)
  | remaining + 1, attemptNumber, st =>
    match (fetchAttempt st (responses attemptNumber)).2 with
    | .ok body =>
      ((fetchAttempt st (responses attemptNumber)).1, .body body, attemptNumber)
    | .error e =>
      if shouldRetryHttpError e then
        match waitBeforeRetry attemptNumber (some e) with
        | .ok _ =>
          fetchRetryGo responses remaining (attemptNumber + 1)
            (fetchAttempt st (responses attemptNumber)).1
        | .error c =>
          ((fetchAttempt st (responses attemptNumber)).1, .crash c,
            attemptNumber)
      else
        ((fetchAttempt st (responses attemptNumber)).1, .reqError e,
          attemptNumber)

/-- `KarolAKvidoClient.fetch_text` against a stream of per-attempt results
(attempt numbers are 1-based). -/
def fetchText (responses : Nat → AttemptResult) (st : ClientState) :
    ClientState × FetchOutcome × Nat :=
  fetchRetryGo responses 4 1 st

/-! ## Multi-event collection (`collect_events`) -/

/-- The `Event` dataclass. -/
structure Event where
  title : String
  starts_at : Datetime
  location : String
  detail_url : String
  information_text : String
  city : Option String
deriving DecidableEq, Repr

/-- The outcome of one iteration of the per-event `while True` body (one
`fetch_text` plus `parse_detail`): a parsed event, an `HTTPError` that
surfaced from the fetch, another `requests.RequestException`, or a
`ValueError` from parsing. -/
inductive DetailOutcome where
  | ok (e : Event)
  | httpError (status : Option Nat) (retryAfter : RetryAfterHeader)
  | reqError
  | valueError
deriving DecidableEq, Repr

/-- A 429 `HTTPError`, the only re-tried outcome of the per-event loop. -/
def is429Outcome : DetailOutcome → Bool
  | .httpError (some s) _ => s = 429
  | _ => false

/-- An outcome the per-event loop catches by skipping the event. -/
def isSkipOutcome : DetailOutcome → Bool
  | .ok _ => false
  | o => !is429Outcome o

/-- The wait of the 429 branch of `collect_events` (lines 266-269): the
parsed `Retry-After` hint when present, else the (already escalated) current
delay, clamped into `[request_delay, max_request_delay]`; the `AttributeError`
from parsing an HTTP-date header at line 267 propagates (no except clause of
the loop catches it). -/
def wait429 (st : ClientState) (ra : RetryAfterHeader) : Except CrashError ℚ :=
  match parseRetryAfterSeconds ra with
  | .error c => .error c
  | .ok v =>
    .ok (min (max (v.getD st.currentDelay) st.requestDelay)
      st.maxRequestDelay)

/-- A 429 outcome whose retry-hint parsing raises (an HTTP-date header). -/
def is429Crash : DetailOutcome → Bool
  | .httpError (some s) ra =>
    s = 429 && (match parseRetryAfterSeconds ra with
      | .error _ => true
      | .ok _ => false)
  | _ => false

/-- How one per-event loop run ends: a parsed event, a skipped event, or an
uncaught exception aborting the whole collection run. -/
inductive LoopExit where
  | success (e : Event)
  | skipped
  | crashed (c : CrashError)
deriving DecidableEq, Repr

/-- The per-event `while True` loop of `collect_events` over a stream of
iteration outcomes (index `i` is the current iteration): success appends and
leaves the loop; a 429 escalates the delay and then computes `wait429` —
sleeping and retrying when it yields a value, aborting the run with the
uncaught `AttributeError` when the header is an HTTP-date; any other
`HTTPError`, `RequestException` or `ValueError` skips the event.  The fuel
argument bounds the modelled iterations; `none` means the loop is still
running when the fuel runs out.  The returned list records the sleeps
performed. -/
def runDetailLoop (outcomes : Nat → DetailOutcome) :
    Nat → Nat → ClientState → Option (LoopExit × ClientState × List ℚ)
  | 0, _, _ => none
  | fuel + 1, i, st =>
    match outcomes i with
    | .ok e => some (.success e, st, [])
    | .httpError status ra =>
      if status = some 429 then
        let st' := increaseDelayAfter429 st
        match wait429 st' ra with
        | .error c => some (.crashed c, st', [])
        | .ok w =>
          match runDetailLoop outcomes fuel (i + 1) st' with
          | some (ex, st'', ws) => some (ex, st'', w :: ws)
          | none => none
      else some (.skipped, st, [])
    | .reqError => some (.skipped, st, [])
    | .valueError => some (.skipped, st, [])

/-- Stable insertion into a list sorted by `starts_at` (equal keys keep the
earlier element first, as Python's stable sort does). -/
def insertByStart (e : Event) : List Event → List Event
  | [] => [e]
  | x :: xs =>
    if e.starts_at.key < x.starts_at.key then e :: x :: xs
    else x :: insertByStart e xs

/-- `events.sort(key=lambda event: event.starts_at)`. -/
def sortByStart (l : List Event) : List Event :=
  l.foldl (fun acc e => insertByStart e acc) []

/-- The candidate loop of `collect_events`: each candidate's detail pages are
processed to completion (success or skip) before the next candidate; `none`
when no event list is returned — because some per-event loop exceeds the
modelling fuel, or because an uncaught exception (`LoopExit.crashed`) aborts
the run. -/
def collectLoop (outcomes : Cand → Nat → DetailOutcome) (fuel : Nat) :
    List Cand → ClientState → Option (List Event × ClientState)
  | [], st => some ([], st)
  | c :: cs, st =>
    match runDetailLoop (outcomes c) fuel 0 st with
    | none => none
    | some (.success e, st', _) =>
      match collectLoop outcomes fuel cs st' with
      | some (evs, st'') => some (e :: evs, st'')
      | none => none
    | some (.skipped, st', _) => collectLoop outcomes fuel cs st'
    | some (.crashed _, _, _) => none

/-- `KarolAKvidoClient.collect_events` after the listing has been parsed into
`cands`: the per-event loops, then the final ascending sort by
`starts_at`. -/
def collectEvents (outcomes : Cand → Nat → DetailOutcome) (fuel : Nat)
    (cands : List Cand) (st : ClientState) :
    Option (List Event × ClientState) :=
  match collectLoop outcomes fuel cands st with
  | some (evs, st') => some (sortByStart evs, st')
  | none => none

/-- The comparison used by the final sort of `collect_events`. -/
def eventLe (a b : Event) : Prop := a.starts_at.key ≤ b.starts_at.key

/-! ## Concrete scenario pages from the spec's testable properties -/

/-- The cascade-ordering scenario: the page title mentions the dateless decoy
"1. března" while the "Kdy:" block independently states the dated line. -/
def cascadeScenarioPage : List Node :=
  [ .elem "h1" [] [.text "Karol a Kvído: 1. března"],
    .elem "h2" [] [.text "Kdy:"],
    .text "1. března 2026, v 16:00 hodin",
    .elem "h2" [] [.text "Kde:"],
    .text "Divadlo U Hasičů" ]

/-- The missing-year scenario: the "Kdy:" block has no year, and the 4-digit
token `2026` appears elsewhere on the page. -/
def borrowedYearScenarioPage : List Node :=
  [ .elem "h1" [] [.text "Karol a Kvído"],
    .elem "h2" [] [.text "Kdy:"],
    .text "14. února, v 15:00 hodin",
    .elem "h2" [] [.text "Informace:"],
    .text "Turné 2026 pokračuje." ]

/-! ## Sequences of throttle adjustments (for the delay invariant) -/

/-- The two operations that mutate `_current_delay`. -/
inductive DelayOp where
  | increase
  | relax
deriving DecidableEq, Repr

def applyDelayOp (st : ClientState) : DelayOp → ClientState
  | .increase => increaseDelayAfter429 st
  | .relax => relaxDelayAfterSuccess st

def applyDelayOps (st : ClientState) (ops : List DelayOp) : ClientState :=
  ops.foldl applyDelayOp st

/-- The configuration facts `__init__` establishes together with the delay
bounds. -/
def clientInvariant (st : ClientState) : Prop :=
  0 ≤ st.requestDelay ∧ st.requestDelay ≤ st.maxRequestDelay
    ∧ 1 ≤ st.adaptiveBackoffFactor
    ∧ st.requestDelay ≤ st.currentDelay
    ∧ st.currentDelay ≤ st.maxRequestDelay

/-! ## Helper lemmas: the throttle delay -/

theorem clientInvariant_init (rd mrd f : ℚ) :
    clientInvariant (initClient rd mrd f) := by
  refine ⟨le_max_left 0 rd, le_max_left _ mrd, le_max_left 1 f, le_refl _,
    le_max_left _ mrd⟩

theorem clientInvariant_increase {st : ClientState}
    (h : clientInvariant st) : clientInvariant (increaseDelayAfter429 st) := by
  obtain ⟨h0, hrm, hf, hrc, hcm⟩ := h
  refine ⟨h0, hrm, hf, ?_, ?_⟩
  · show st.requestDelay ≤ min _ st.maxRequestDelay
    refine le_min ?_ hrm
    by_cases hc : st.currentDelay ≤ 0
    · have hr0 : st.requestDelay = 0 := le_antisymm (hrc.trans hc) h0
      simp [increaseDelayAfter429, hc, hr0]
    · push_neg at hc
      have : st.currentDelay ≤ st.currentDelay * st.adaptiveBackoffFactor :=
        le_mul_of_one_le_right hc.le hf
      simp only [increaseDelayAfter429, if_neg (not_le.mpr hc)]
      exact hrc.trans this
  · exact min_le_right _ _

theorem clientInvariant_relax {st : ClientState}
    (h : clientInvariant st) : clientInvariant (relaxDelayAfterSuccess st) := by
  obtain ⟨h0, hrm, hf, hrc, hcm⟩ := h
  refine ⟨h0, hrm, hf, ?_, ?_⟩
  · show st.requestDelay ≤ (relaxDelayAfterSuccess st).currentDelay
    by_cases hc : st.currentDelay ≤ st.requestDelay
    · simp [relaxDelayAfterSuccess, hc]
    · simp [relaxDelayAfterSuccess, hc, le_max_left]
  · show (relaxDelayAfterSuccess st).currentDelay ≤ st.maxRequestDelay
    by_cases hc : st.currentDelay ≤ st.requestDelay
    · simpa [relaxDelayAfterSuccess, hc] using hrm
    · push_neg at hc
      have hcpos : (0 : ℚ) ≤ st.currentDelay := h0.trans hc.le
      have hdecay : st.currentDelay * (9 / 10) ≤ st.currentDelay := by
        nlinarith
      simp only [relaxDelayAfterSuccess, if_neg (not_le.mpr hc)]
      exact max_le hrm (hdecay.trans hcm)

theorem clientInvariant_ops {st : ClientState} (h : clientInvariant st) :
    ∀ ops : List DelayOp, clientInvariant (applyDelayOps st ops) := by
  intro ops
  induction ops generalizing st with
  | nil => exact h
  | cons op rest ih =>
    cases op with
    | increase => exact ih (clientInvariant_increase h)
    | relax => exact ih (clientInvariant_relax h)

/-! ## Claim theorems: fetch client -/

/-- C9: the adaptive throttle delay stays within
`[request_delay, max_request_delay]`: starting from any configuration, after
any sequence of 429-escalations and success-relaxations the current delay is
at least the (clamped) base delay and at most the (clamped) maximum. -/
theorem C9_delay_within_bounds (rd mrd f : ℚ) (ops : List DelayOp) :
    (applyDelayOps (initClient rd mrd f) ops).requestDelay
        ≤ (applyDelayOps (initClient rd mrd f) ops).currentDelay
    ∧ (applyDelayOps (initClient rd mrd f) ops).currentDelay
        ≤ (applyDelayOps (initClient rd mrd f) ops).maxRequestDelay := by
  have h := clientInvariant_ops (clientInvariant_init rd mrd f) ops
  exact ⟨h.2.2.2.1, h.2.2.2.2⟩

/-- C8: for a 429 with a digit `Retry-After` the retry wait is
`max(bounded_backoff, min(hint, 90))`, and for an absent or unusable header
the bounded backoff alone, which lies in `[1, 8]` so the combined wait never
exceeds 90; but for a `Retry-After` that parses as an HTTP-date no wait is
ever computed — `_parse_retry_after_seconds` raises `AttributeError`
(`datetime.UTC` on the imported class, `scraper.py` lines 81/83) and
`_wait_before_retry` propagates it — refuting the claim's HTTP-date half. -/
theorem C8_retry_wait_formula_and_crash (a : Nat) (n : Nat) :
    waitBeforeRetry a (some (.httpError (some 429) (.seconds n)))
        = .ok (max (waitExponentialVal a) (min (n : ℚ) 90))
    ∧ waitBeforeRetry a (some (.httpError (some 429) .absent))
        = .ok (waitExponentialVal a)
    ∧ waitBeforeRetry a (some (.httpError (some 429) .malformed))
        = .ok (waitExponentialVal a)
    ∧ waitBeforeRetry a none = .ok (waitExponentialVal a)
    ∧ parseRetryAfterSeconds .httpDate = .error .attributeError
    ∧ waitBeforeRetry a (some (.httpError (some 429) .httpDate))
        = .error .attributeError
    ∧ 1 ≤ waitExponentialVal a ∧ waitExponentialVal a ≤ 8
    ∧ max (waitExponentialVal a) (min (n : ℚ) 90) ≤ 90 := by
  have h1 : (1 : ℚ) ≤ waitExponentialVal a := le_max_left _ _
  have h8 : waitExponentialVal a ≤ 8 :=
    max_le (by norm_num) (min_le_right _ _)
  refine ⟨rfl, rfl, rfl, rfl, rfl, rfl, h1, h8, ?_⟩
  exact max_le (h8.trans (by norm_num)) (min_le_right _ _)

theorem fetchRetryGo_attempts (responses : Nat → AttemptResult) :
    ∀ (remaining attemptNumber : Nat) (st : ClientState),
      (fetchRetryGo responses remaining attemptNumber st).2.2
        ≤ remaining + attemptNumber := by
  intro remaining
  induction remaining with
  | zero =>
    intro n st
    rcases h : (fetchAttempt st (responses n)).2 with e | b <;>
      simp [fetchRetryGo, h]
  | succ r ih =>
    intro n st
    simp only [fetchRetryGo]
    rcases h : (fetchAttempt st (responses n)).2 with e | b
    · simp only [h]
      by_cases hr : shouldRetryHttpError e
      · rcases hw : waitBeforeRetry n (some e) with c | w
        · simp [hr, hw]
        · simpa [hr, hw] using (ih (n + 1) _).trans (by omega)
      · simp [hr]
    · simp [h]

/-- C7: `fetch_text` makes at most 5 attempts; timeouts, connection failures,
429 and every 5xx are classified retryable while a 404 is not; a first
response of 404 surfaces the error after exactly one attempt with the
throttle state untouched; a persistent 429 whose `Retry-After` is absent or a
digit string is retried until all 5 attempts are spent and the `HTTPError`
then surfaces — but a 429 whose `Retry-After` parses as an HTTP-date is not
retried at all: the between-attempt wait computation raises `AttributeError`
(`scraper.py` lines 81/83) and `fetch_text` aborts after exactly one attempt,
contradicting the claimed retry policy for retryable conditions. -/
theorem C7_retry_policy (responses : Nat → AttemptResult) (st : ClientState)
    (body : String) (ra : RetryAfterHeader) (k s : Nat) (h5 : 500 ≤ s) :
    (fetchText responses st).2.2 ≤ 5
    ∧ (responses 1 = .response 404 body ra →
        fetchText responses st
          = (st, .reqError (.httpError (some 404) ra), 1))
    ∧ ((fetchText (fun _ => .response 429 body .absent) st).2.1
          = .reqError (.httpError (some 429) .absent)
        ∧ (fetchText (fun _ => .response 429 body .absent) st).2.2 = 5)
    ∧ ((fetchText (fun _ => .response 429 body (.seconds k)) st).2.1
          = .reqError (.httpError (some 429) (.seconds k))
        ∧ (fetchText (fun _ => .response 429 body (.seconds k)) st).2.2 = 5)
    ∧ fetchText (fun _ => .response 429 body .httpDate) st
        = (increaseDelayAfter429 st, .crash .attributeError, 1)
    ∧ shouldRetryHttpError .timeout = true
    ∧ shouldRetryHttpError .connError = true
    ∧ shouldRetryHttpError (.httpError (some 429) ra) = true
    ∧ shouldRetryHttpError (.httpError (some s) ra) = true
    ∧ shouldRetryHttpError (.httpError (some 404) ra) = false := by
  refine ⟨?_, ?_, ?_, ?_, ?_, rfl, rfl,
    by simp [shouldRetryHttpError], ?_, ?_⟩
  · exact (fetchRetryGo_attempts responses 4 1 st).trans (by omega)
  · intro h404
    simp [fetchText, fetchRetryGo, fetchAttempt, h404, shouldRetryHttpError]
  · constructor <;>
      simp [fetchText, fetchRetryGo, fetchAttempt, shouldRetryHttpError,
        waitBeforeRetry, parseRetryAfterSeconds]
  · constructor <;>
      simp [fetchText, fetchRetryGo, fetchAttempt, shouldRetryHttpError,
        waitBeforeRetry, parseRetryAfterSeconds]
  · simp [fetchText, fetchRetryGo, fetchAttempt, shouldRetryHttpError,
      waitBeforeRetry, parseRetryAfterSeconds]
  · simp [shouldRetryHttpError]; omega
  · simp [shouldRetryHttpError]

/-- Witness for C7 at a concrete configuration: a 404-responding server is
asked exactly once, and an HTTP-date `Retry-After` on a 429 aborts `fetch_text`
after one attempt with the `AttributeError`. -/
theorem C7_retry_policy_witness :
    (fetchText (fun _ => .response 404 "nenalezeno" .absent)
        (initClient 1 90 2)).2.2 ≤ 5
    ∧ ((fun _ => AttemptResult.response 404 "nenalezeno" .absent) 1
          = .response 404 "nenalezeno" .absent →
        fetchText (fun _ => .response 404 "nenalezeno" .absent)
            (initClient 1 90 2)
          = (initClient 1 90 2,
              .reqError (.httpError (some 404) .absent), 1))
    ∧ fetchText (fun _ => .response 429 "nenalezeno" .httpDate)
          (initClient 1 90 2)
        = (increaseDelayAfter429 (initClient 1 90 2),
            .crash .attributeError, 1) := by
  have h := C7_retry_policy (fun _ => .response 404 "nenalezeno" .absent)
    (initClient 1 90 2) "nenalezeno" .absent 0 500 (by norm_num)
  exact ⟨h.1, h.2.1, h.2.2.2.2.1⟩

/-! ## Helper lemmas: sorting -/

theorem insertByStart_mem {e y : Event} :
    ∀ {l : List Event}, y ∈ insertByStart e l → y = e ∨ y ∈ l := by
  intro l
  induction l with
  | nil =>
    intro h
    simp only [insertByStart, List.mem_singleton] at h
    exact Or.inl h
  | cons x xs ih =>
    intro h
    by_cases hc : e.starts_at.key < x.starts_at.key
    · simp only [insertByStart, if_pos hc, List.mem_cons] at h
      rcases h with h | h | h
      · exact Or.inl h
      · exact Or.inr (by simp [h])
      · exact Or.inr (by simp [h])
    · simp only [insertByStart, if_neg hc, List.mem_cons] at h
      rcases h with h | h
      · exact Or.inr (by simp [h])
      · rcases ih h with h' | h'
        · exact Or.inl h'
        · exact Or.inr (by simp [h'])

theorem insertByStart_sorted (e : Event) :
    ∀ {l : List Event}, l.Pairwise eventLe →
      (insertByStart e l).Pairwise eventLe := by
  intro l
  induction l with
  | nil => intro _; simp [insertByStart, List.pairwise_singleton]
  | cons x xs ih =>
    intro h
    rcases List.pairwise_cons.mp h with ⟨hx, hxs⟩
    by_cases hc : e.starts_at.key < x.starts_at.key
    · simp only [insertByStart, if_pos hc]
      refine List.pairwise_cons.mpr ⟨?_, h⟩
      intro y hy
      rcases List.mem_cons.mp hy with rfl | hy'
      · exact le_of_lt hc
      · exact le_trans (le_of_lt hc) (hx y hy')
    · simp only [insertByStart, if_neg hc]
      refine List.pairwise_cons.mpr ⟨?_, ih hxs⟩
      intro y hy
      rcases insertByStart_mem hy with rfl | hy'
      · exact not_lt.mp hc
      · exact hx y hy'

theorem sortByStart_sorted_from (acc : List Event)
    (hacc : acc.Pairwise eventLe) :
    ∀ l : List Event,
      (l.foldl (fun acc e => insertByStart e acc) acc).Pairwise eventLe := by
  intro l
  induction l generalizing acc with
  | nil => exact hacc
  | cons x xs ih => exact ih _ (insertByStart_sorted x hacc)

theorem sortByStart_sorted (l : List Event) :
    (sortByStart l).Pairwise eventLe :=
  sortByStart_sorted_from [] List.Pairwise.nil l

/-! ## Claim theorems: collection ordering -/

/-- C2: whatever the candidates, per-iteration outcomes, fuel and initial
throttle state, a successful `collect_events` run returns its events in
ascending `starts_at` order: every pair of events in output order (in
particular every adjacent pair) satisfies
`starts_at[i] ≤ starts_at[i+1]`. -/
theorem C2_collect_sorted (outcomes : Cand → Nat → DetailOutcome) (fuel : Nat)
    (cands : List Cand) (st : ClientState) (evs : List Event)
    (st' : ClientState)
    (h : collectEvents outcomes fuel cands st = some (evs, st')) :
    evs.Pairwise (fun a b => a.starts_at.key ≤ b.starts_at.key) := by
  unfold collectEvents at h
  rcases hc : collectLoop outcomes fuel cands st with _ | ⟨evs0, st0⟩
  · rw [hc] at h; exact absurd h (by simp)
  · rw [hc] at h
    have : evs = sortByStart evs0 := by
      have := h
      simp only [Option.some.injEq, Prod.mk.injEq] at this
      exact this.1.symm
    rw [this]
    exact sortByStart_sorted evs0

/-- Witness for C2: a two-candidate run whose events arrive out of order is
returned sorted. -/
theorem C2_collect_sorted_witness :
    List.Pairwise
      (fun (a b : Event) => a.starts_at.key ≤ b.starts_at.key)
      [⟨"B", ⟨2026, 2, 14, 10, 0⟩, "Praha", "u2", "", none⟩,
       ⟨"A", ⟨2026, 3, 1, 16, 0⟩, "Brno", "u1", "", none⟩] := by
  refine C2_collect_sorted
    (fun c _ => if c.detail_url = "u1" then
        .ok ⟨"A", ⟨2026, 3, 1, 16, 0⟩, "Brno", "u1", "", none⟩
      else .ok ⟨"B", ⟨2026, 2, 14, 10, 0⟩, "Praha", "u2", "", none⟩)
    1 [⟨"A", "u1", ""⟩, ⟨"B", "u2", ""⟩] (initClient 1 90 2) _
    (initClient 1 90 2) (by decide)

/-! ## Helper lemmas: the per-event 429 loop -/

theorem runDetailLoop_ok {outcomes : Nat → DetailOutcome} {f i : Nat}
    {st : ClientState} {e : Event} (ho : outcomes i = .ok e) :
    runDetailLoop outcomes (f + 1) i st = some (.success e, st, []) := by
  rw [runDetailLoop, ho]

theorem wait429_ok_of_ne (st : ClientState) {ra : RetryAfterHeader}
    (h : ra ≠ .httpDate) : ∃ w, wait429 st ra = .ok w := by
  cases ra with
  | absent => exact ⟨_, rfl⟩
  | seconds n => exact ⟨_, rfl⟩
  | httpDate => exact absurd rfl h
  | malformed => exact ⟨_, rfl⟩

theorem runDetailLoop_429 {outcomes : Nat → DetailOutcome} {f i : Nat}
    {st : ClientState} {ra : RetryAfterHeader}
    (ho : outcomes i = .httpError (some 429) ra) :
    runDetailLoop outcomes (f + 1) i st
      = match wait429 (increaseDelayAfter429 st) ra with
        | .error c => some (.crashed c, increaseDelayAfter429 st, [])
        | .ok w =>
          match runDetailLoop outcomes f (i + 1)
              (increaseDelayAfter429 st) with
          | some (ex, st2, ws) => some (ex, st2, w :: ws)
          | none => none := by
  rw [runDetailLoop, ho]
  rfl

theorem runDetailLoop_429_ok {outcomes : Nat → DetailOutcome} {f i : Nat}
    {st : ClientState} {ra : RetryAfterHeader} {w : ℚ}
    (ho : outcomes i = .httpError (some 429) ra)
    (hw : wait429 (increaseDelayAfter429 st) ra = .ok w) :
    runDetailLoop outcomes (f + 1) i st
      = match runDetailLoop outcomes f (i + 1) (increaseDelayAfter429 st) with
        | some (ex, st2, ws) => some (ex, st2, w :: ws)
        | none => none := by
  rw [runDetailLoop_429 ho, hw]

theorem runDetailLoop_429_crash {outcomes : Nat → DetailOutcome} {f i : Nat}
    {st : ClientState} {ra : RetryAfterHeader} {c : CrashError}
    (ho : outcomes i = .httpError (some 429) ra)
    (hw : wait429 (increaseDelayAfter429 st) ra = .error c) :
    runDetailLoop outcomes (f + 1) i st
      = some (.crashed c, increaseDelayAfter429 st, []) := by
  rw [runDetailLoop_429 ho, hw]

theorem wait429_error_parse {st : ClientState} {ra : RetryAfterHeader}
    {c : CrashError} (hw : wait429 st ra = .error c) :
    parseRetryAfterSeconds ra = .error c := by
  unfold wait429 at hw
  split at hw
  · rename_i c0 heq
    cases hw
    exact heq
  · simp at hw

theorem runDetailLoop_badStatus {outcomes : Nat → DetailOutcome} {f i : Nat}
    {st : ClientState} {status : Option Nat} {ra : RetryAfterHeader}
    (ho : outcomes i = .httpError status ra) (h429 : status ≠ some 429) :
    runDetailLoop outcomes (f + 1) i st = some (.skipped, st, []) := by
  rw [runDetailLoop, ho]
  exact if_neg h429

theorem runDetailLoop_reqError {outcomes : Nat → DetailOutcome} {f i : Nat}
    {st : ClientState} (ho : outcomes i = .reqError) :
    runDetailLoop outcomes (f + 1) i st = some (.skipped, st, []) := by
  rw [runDetailLoop, ho]

theorem runDetailLoop_valueError {outcomes : Nat → DetailOutcome} {f i : Nat}
    {st : ClientState} (ho : outcomes i = .valueError) :
    runDetailLoop outcomes (f + 1) i st = some (.skipped, st, []) := by
  rw [runDetailLoop, ho]

theorem runDetailLoop_spec (outcomes : Nat → DetailOutcome) :
    ∀ (fuel i : Nat) (st : ClientState) (ex : LoopExit) (st' : ClientState)
      (ws : List ℚ),
      runDetailLoop outcomes fuel i st = some (ex, st', ws) →
      ((∃ e, ex = .success e ∧ outcomes (i + ws.length) = .ok e)
          ∨ (ex = .skipped ∧ isSkipOutcome (outcomes (i + ws.length)))
          ∨ (∃ c, ex = .crashed c ∧ is429Crash (outcomes (i + ws.length))))
        ∧ ∀ k, k < ws.length → is429Outcome (outcomes (i + k)) := by
  intro fuel
  induction fuel with
  | zero => intro i st ex st' ws h; exact absurd h (by simp [runDetailLoop])
  | succ f ih =>
    intro i st ex st' ws h
    rcases ho : outcomes i with e | ⟨status, ra⟩ | _ | _
    · rw [runDetailLoop_ok ho] at h
      simp only [Option.some.injEq, Prod.mk.injEq] at h
      obtain ⟨rfl, rfl, rfl⟩ := h
      refine ⟨Or.inl ⟨e, rfl, by simpa using ho⟩, by simp⟩
    · by_cases h429 : status = some 429
      · subst h429
        rcases hw : wait429 (increaseDelayAfter429 st) ra with c | w
        · rw [runDetailLoop_429_crash ho hw] at h
          simp only [Option.some.injEq, Prod.mk.injEq] at h
          obtain ⟨rfl, rfl, rfl⟩ := h
          refine ⟨Or.inr (Or.inr ⟨c, rfl, ?_⟩), by simp⟩
          have hp := wait429_error_parse hw
          simp [ho, is429Crash, hp]
        · rw [runDetailLoop_429_ok ho hw] at h
          rcases hin : runDetailLoop outcomes f (i + 1)
              (increaseDelayAfter429 st)
            with _ | ⟨ex0, st0, ws0⟩ <;> rw [hin] at h
          · exact absurd h (by simp)
          · simp only [Option.some.injEq, Prod.mk.injEq] at h
            obtain ⟨rfl, rfl, rfl⟩ := h
            obtain ⟨hmain, hall⟩ := ih (i + 1) _ _ _ _ hin
            constructor
            · have harith : i + (ws0.length + 1) = i + 1 + ws0.length := by
                omega
              simpa [List.length_cons, harith] using hmain
            · intro k hk
              cases k with
              | zero => simp [ho, is429Outcome]
              | succ k' =>
                have harith : i + (k' + 1) = i + 1 + k' := by omega
                rw [harith]
                exact hall k' (by simpa using hk)
      · rw [runDetailLoop_badStatus ho h429] at h
        simp only [Option.some.injEq, Prod.mk.injEq] at h
        obtain ⟨rfl, rfl, rfl⟩ := h
        refine ⟨Or.inr (Or.inl ⟨rfl, ?_⟩), by simp⟩
        rcases status with _ | s
        · simp [ho, isSkipOutcome, is429Outcome]
        · have hs : ¬ s = 429 := fun hc => h429 (by rw [hc])
          simp [ho, isSkipOutcome, is429Outcome, hs]
    · rw [runDetailLoop_reqError ho] at h
      simp only [Option.some.injEq, Prod.mk.injEq] at h
      obtain ⟨rfl, rfl, rfl⟩ := h
      exact ⟨Or.inr (Or.inl ⟨rfl, by simp [ho, isSkipOutcome, is429Outcome]⟩),
        by simp⟩
    · rw [runDetailLoop_valueError ho] at h
      simp only [Option.some.injEq, Prod.mk.injEq] at h
      obtain ⟨rfl, rfl, rfl⟩ := h
      exact ⟨Or.inr (Or.inl ⟨rfl, by simp [ho, isSkipOutcome, is429Outcome]⟩),
        by simp⟩

theorem runDetailLoop_persistent429 (outcomes : Nat → DetailOutcome)
    (hall : ∀ n, ∃ ra, outcomes n = .httpError (some 429) ra
      ∧ ra ≠ .httpDate) :
    ∀ (fuel i : Nat) (st : ClientState),
      runDetailLoop outcomes fuel i st = none := by
  intro fuel
  induction fuel with
  | zero => intro i st; rfl
  | succ f ih =>
    intro i st
    obtain ⟨ra, ho, hra⟩ := hall i
    obtain ⟨w, hw⟩ := wait429_ok_of_ne (increaseDelayAfter429 st) hra
    rw [runDetailLoop_429_ok ho hw, ih (i + 1)]

/-! ## Claim theorems: the per-event 429 loop -/

/-- C10: in the per-event loop of `collect_events`: (1) a run ending in
success saw `ok` at its last iteration and only 429s before it (one recorded
sleep per retried 429); (2) a run ending in a skip saw a non-429 error at its
last iteration and only 429s before it — a 429 by itself never skips the
event; (3) a 429 whose `Retry-After` parses without crashing escalates the
delay, sleeps `min(max(hint-or-current, base), max)` and re-enters the loop,
and (4) under persistent such 429s the loop never terminates for any fuel;
but (5) a 429 whose `Retry-After` is an HTTP-date is neither slept on nor
re-attempted: the handler's hint parsing (`scraper.py` line 267, via lines
81/83) raises an uncaught `AttributeError` and the run aborts, refuting the
claim's unconditional sleep-and-re-attempt. -/
theorem C10_429_retry_and_crash :
    (∀ (outcomes : Nat → DetailOutcome) (fuel i : Nat) (st st' : ClientState)
        (e : Event) (ws : List ℚ),
        runDetailLoop outcomes fuel i st = some (.success e, st', ws) →
        outcomes (i + ws.length) = .ok e
          ∧ ∀ k, k < ws.length → is429Outcome (outcomes (i + k)))
    ∧ (∀ (outcomes : Nat → DetailOutcome) (fuel i : Nat) (st st' : ClientState)
        (ws : List ℚ),
        runDetailLoop outcomes fuel i st = some (.skipped, st', ws) →
        isSkipOutcome (outcomes (i + ws.length))
          ∧ ∀ k, k < ws.length → is429Outcome (outcomes (i + k)))
    ∧ (∀ (outcomes : Nat → DetailOutcome) (fuel i : Nat) (st : ClientState)
        (ra : RetryAfterHeader) (w : ℚ),
        outcomes i = .httpError (some 429) ra →
        wait429 (increaseDelayAfter429 st) ra = .ok w →
        runDetailLoop outcomes (fuel + 1) i st
          = match runDetailLoop outcomes fuel (i + 1)
                (increaseDelayAfter429 st) with
            | some (ex, st2, ws) => some (ex, st2, w :: ws)
            | none => none)
    ∧ (∀ outcomes : Nat → DetailOutcome,
        (∀ n, ∃ ra, outcomes n = .httpError (some 429) ra ∧ ra ≠ .httpDate) →
        ∀ (fuel i : Nat) (st : ClientState),
          runDetailLoop outcomes fuel i st = none)
    ∧ (∀ (outcomes : Nat → DetailOutcome) (fuel i : Nat) (st : ClientState),
        outcomes i = .httpError (some 429) .httpDate →
        runDetailLoop outcomes (fuel + 1) i st
          = some (.crashed .attributeError,
              increaseDelayAfter429 st, [])) := by
  refine ⟨?_, ?_, ?_, ?_, ?_⟩
  · intro outcomes fuel i st st' e ws h
    obtain ⟨hmain, hall⟩ := runDetailLoop_spec outcomes fuel i st _ st' ws h
    rcases hmain with ⟨e', he', hok⟩ | ⟨hsk, _⟩ | ⟨c, hc, _⟩
    · cases he'
      exact ⟨hok, hall⟩
    · exact absurd hsk (by simp)
    · exact absurd hc (by simp)
  · intro outcomes fuel i st st' ws h
    obtain ⟨hmain, hall⟩ := runDetailLoop_spec outcomes fuel i st _ st' ws h
    rcases hmain with ⟨e', he', _⟩ | ⟨_, hsk⟩ | ⟨c, hc, _⟩
    · exact absurd he' (by simp)
    · exact ⟨hsk, hall⟩
    · exact absurd hc (by simp)
  · intro outcomes fuel i st ra w ho hw
    exact runDetailLoop_429_ok ho hw
  · intro outcomes hall fuel i st
    exact runDetailLoop_persistent429 outcomes hall fuel i st
  · intro outcomes fuel i st ho
    exact runDetailLoop_429_crash ho rfl

/-- Witness for C10 at concrete data: a loop fed only 429s with absent
retry-hints does not terminate, and a single 429 with an HTTP-date hint
aborts the run with the `AttributeError` after escalating the delay. -/
theorem C10_429_retry_and_crash_witness :
    runDetailLoop (fun _ => DetailOutcome.httpError (some 429) .absent)
        5 0 (initClient 1 90 2) = none
    ∧ runDetailLoop (fun _ => DetailOutcome.httpError (some 429) .httpDate)
        3 0 (initClient 1 90 2)
      = some (.crashed .attributeError,
          increaseDelayAfter429 (initClient 1 90 2), []) := by
  constructor
  · exact C10_429_retry_and_crash.2.2.2.1
      (fun _ => DetailOutcome.httpError (some 429) .absent)
      (fun _ => ⟨.absent, rfl, by decide⟩) 5 0 (initClient 1 90 2)
  · exact C10_429_retry_and_crash.2.2.2.2
      (fun _ => DetailOutcome.httpError (some 429) .httpDate)
      2 0 (initClient 1 90 2) rfl

/-! ## Helper lemmas: skipped events leave the collection unchanged -/

theorem collectLoop_skip_middle (outcomes : Cand → Nat → DetailOutcome)
    (c : Cand) (hskip : isSkipOutcome (outcomes c 0)) (fuel : Nat) :
    ∀ (pre post : List Cand) (st : ClientState),
      collectLoop outcomes (fuel + 1) (pre ++ c :: post) st
        = collectLoop outcomes (fuel + 1) (pre ++ post) st := by
  intro pre
  induction pre with
  | nil =>
    intro post st
    have hstep : runDetailLoop (outcomes c) (fuel + 1) 0 st
        = some (.skipped, st, []) := by
      rcases ho : outcomes c 0 with e | ⟨status, ra⟩ | _ | _
      · rw [ho] at hskip; simp [isSkipOutcome] at hskip
      · have h429 : status ≠ some 429 := by
          intro hc
          subst hc
          rw [ho] at hskip
          simp [isSkipOutcome, is429Outcome] at hskip
        exact runDetailLoop_badStatus ho h429
      · exact runDetailLoop_reqError ho
      · exact runDetailLoop_valueError ho
    simp only [List.nil_append, collectLoop, hstep]
  | cons p pre ih =>
    intro post st
    simp only [List.cons_append, collectLoop]
    rcases hr : runDetailLoop (outcomes p) (fuel + 1) 0 st
      with _ | ⟨ex, st0, ws⟩
    · rfl
    · cases ex with
      | success e =>
        have h := ih post st0
        simp only [List.append_eq]
        rw [h]
      | skipped => exact ih post st0
      | crashed c => rfl

theorem collectEvents_two (outcomes : Cand → Nat → DetailOutcome)
    (ca cb : Cand) (ea : Event) (status : Option Nat) (ra : RetryAfterHeader)
    (fuel : Nat) (st : ClientState)
    (hca : outcomes ca 0 = .ok ea)
    (hcb : outcomes cb 0 = .httpError status ra)
    (h429 : status ≠ some 429) :
    collectEvents outcomes (fuel + 1) [ca, cb] st = some ([ea], st) := by
  have h1 : runDetailLoop (outcomes ca) (fuel + 1) 0 st
      = some (.success ea, st, []) := runDetailLoop_ok hca
  have h2 : runDetailLoop (outcomes cb) (fuel + 1) 0 st
      = some (.skipped, st, []) := runDetailLoop_badStatus hcb h429
  simp only [collectEvents, collectLoop, h1, h2]
  simp [sortByStart, insertByStart]

/-! ## Claim theorems: error handling during collection -/

/-- C1: during multi-event collection an iteration outcome that the loop
catches by skipping — a non-429 `HTTPError`, another fetch exception, or a
parse `ValueError` — removes exactly that event and leaves the processing of
every other candidate (and the throttle state) unchanged, so the run does not
fail; in particular a two-candidate listing where one detail fetch raises a
fatal (non-429) HTTP error collects exactly the one resolvable event. -/
theorem C1_single_event_errors_skipped :
    (∀ (outcomes : Cand → Nat → DetailOutcome) (c : Cand) (fuel : Nat)
        (pre post : List Cand) (st : ClientState),
        isSkipOutcome (outcomes c 0) →
        collectEvents outcomes (fuel + 1) (pre ++ c :: post) st
          = collectEvents outcomes (fuel + 1) (pre ++ post) st)
    ∧ (∀ (outcomes : Cand → Nat → DetailOutcome) (ca cb : Cand) (ea : Event)
        (status : Option Nat) (ra : RetryAfterHeader) (fuel : Nat)
        (st : ClientState),
        outcomes ca 0 = .ok ea →
        outcomes cb 0 = .httpError status ra →
        status ≠ some 429 →
        collectEvents outcomes (fuel + 1) [ca, cb] st = some ([ea], st)) := by
  constructor
  · intro outcomes c fuel pre post st hskip
    simp only [collectEvents]
    rw [collectLoop_skip_middle outcomes c hskip fuel pre post st]
  · intro outcomes ca cb ea status ra fuel st hca hcb h429
    exact collectEvents_two outcomes ca cb ea status ra fuel st hca hcb h429

/-- Witness for C1: a concrete two-candidate listing where the second page
404s yields exactly the first event and an unchanged throttle state. -/
theorem C1_single_event_errors_skipped_witness :
    collectEvents
      (fun c _ => if c = (⟨"A", "u1", "Praha"⟩ : Cand) then
          .ok ⟨"A", ⟨2026, 3, 1, 16, 0⟩, "Brno", "u1", "", none⟩
        else .httpError (some 404) .absent)
      5 [⟨"A", "u1", "Praha"⟩, ⟨"B", "u2", "Brno"⟩] (initClient 1 90 2)
      = some ([⟨"A", ⟨2026, 3, 1, 16, 0⟩, "Brno", "u1", "", none⟩],
          initClient 1 90 2) :=
  C1_single_event_errors_skipped.2
    (fun c _ => if c = (⟨"A", "u1", "Praha"⟩ : Cand) then
        .ok ⟨"A", ⟨2026, 3, 1, 16, 0⟩, "Brno", "u1", "", none⟩
      else .httpError (some 404) .absent)
    ⟨"A", "u1", "Praha"⟩ ⟨"B", "u2", "Brno"⟩
    ⟨"A", ⟨2026, 3, 1, 16, 0⟩, "Brno", "u1", "", none⟩
    (some 404) .absent 4 (initClient 1 90 2)
    (by decide) (by decide) (by decide)

/-! ## Helper lemmas: dict deduplication -/

theorem getLast?_cons_or (x : Cand) (xs : List Cand) :
    (x :: xs).getLast? = xs.getLast?.or (some x) := by
  cases xs with
  | nil => rfl
  | cons y ys =>
    rw [List.getLast?_cons_cons]
    have : ∃ z, (y :: ys).getLast? = some z := by
      induction ys generalizing y with
      | nil => exact ⟨y, rfl⟩
      | cons z zs ih =>
        rw [List.getLast?_cons_cons]
        exact ih z
    obtain ⟨z, hz⟩ := this
    rw [hz]
    rfl

theorem replace_map_url (e : Cand) : ∀ acc : List Cand,
    ((acc.map (fun x => if x.detail_url = e.detail_url then e else x)).map
        Cand.detail_url) = acc.map Cand.detail_url := by
  intro acc
  induction acc with
  | nil => rfl
  | cons x rest ih =>
    simp only [List.map_cons, ih]
    by_cases hx : x.detail_url = e.detail_url
    · simp [hx]
    · simp [hx]

theorem dedupInsert_map_url_nodup {acc : List Cand} (e : Cand)
    (h : (acc.map Cand.detail_url).Nodup) :
    ((dedupInsert acc e).map Cand.detail_url).Nodup := by
  by_cases hany : acc.any (fun x => x.detail_url = e.detail_url) = true
  · simp only [dedupInsert, if_pos hany]
    rw [replace_map_url]
    exact h
  · have hnotin : e.detail_url ∉ acc.map Cand.detail_url := by
      intro hmem
      obtain ⟨x, hx, hxe⟩ := List.mem_map.mp hmem
      exact hany (List.any_eq_true.mpr ⟨x, hx, by simp [hxe]⟩)
    simp only [dedupInsert, if_neg hany, List.map_append, List.map_cons,
      List.map_nil]
    rw [List.nodup_append]
    exact ⟨h, List.nodup_singleton _,
      fun a ha hb => by simp at hb; subst hb; exact hnotin ha⟩

theorem find?_replace_ne (e : Cand) (u : String) (hne : e.detail_url ≠ u) :
    ∀ acc : List Cand,
      ((acc.map (fun x => if x.detail_url = e.detail_url then e else x)).find?
          (fun c => c.detail_url == u))
        = acc.find? (fun c => c.detail_url == u) := by
  intro acc
  induction acc with
  | nil => rfl
  | cons x rest ih =>
    by_cases hx : x.detail_url = e.detail_url
    · have hxu : (x.detail_url == u) = false := by
        simp [hx]
        exact fun hc => hne (hx ▸ hc)
      have heu : (e.detail_url == u) = false := by simp [hne]
      simp only [List.map_cons, if_pos hx, List.find?_cons, heu, hxu, ih]
    · simp only [List.map_cons, if_neg hx, List.find?_cons, ih]

theorem find?_replace_eq (e : Cand) : ∀ acc : List Cand,
    acc.any (fun x => x.detail_url = e.detail_url) = true →
      ((acc.map (fun x => if x.detail_url = e.detail_url then e else x)).find?
          (fun c => c.detail_url == e.detail_url))
        = some e := by
  intro acc
  induction acc with
  | nil => intro h; simp at h
  | cons x rest ih =>
    intro h
    by_cases hx : x.detail_url = e.detail_url
    · simp only [List.map_cons, if_pos hx, List.find?_cons, beq_self_eq_true]
    · have : rest.any (fun x => x.detail_url = e.detail_url) = true := by
        simpa [List.any_cons, hx] using h
      have hxu : (x.detail_url == e.detail_url) = false := by simp [hx]
      simp only [List.map_cons, if_neg hx, List.find?_cons, hxu, ih this]

theorem dedupInsert_find (acc : List Cand) (e : Cand) (u : String) :
    (dedupInsert acc e).find? (fun c => c.detail_url == u)
      = if e.detail_url = u then some e
        else acc.find? (fun c => c.detail_url == u) := by
  by_cases hany : acc.any (fun x => x.detail_url = e.detail_url) = true
  · by_cases hu : e.detail_url = u
    · subst hu
      simp only [dedupInsert, if_pos hany, if_pos rfl]
      exact find?_replace_eq e acc hany
    · simp only [dedupInsert, if_pos hany, if_neg hu]
      exact find?_replace_ne e u hu acc
  · simp only [dedupInsert, if_neg hany, List.find?_append]
    by_cases hu : e.detail_url = u
    · subst hu
      have hnone : acc.find? (fun c => c.detail_url == e.detail_url) = none := by
        rw [List.find?_eq_none]
        intro x hx hpx
        exact hany (List.any_eq_true.mpr ⟨x, hx, by simpa using hpx⟩)
      simp [hnone]
    · have hfe : ([e].find? (fun c => c.detail_url == u)) = none := by
        simp [List.find?_cons, hu]
      simp [hfe, hu, Option.or_none]

theorem dedup_find_from (u : String) : ∀ (l acc : List Cand),
    (l.foldl dedupInsert acc).find? (fun c => c.detail_url == u)
      = ((l.filter (fun c => c.detail_url == u)).getLast?).or
          (acc.find? (fun c => c.detail_url == u)) := by
  intro l
  induction l with
  | nil => intro acc; simp
  | cons e l ih =>
    intro acc
    rw [List.foldl_cons, ih (dedupInsert acc e), dedupInsert_find]
    by_cases hu : e.detail_url = u
    · have hpe : (e.detail_url == u) = true := by simp [hu]
      rw [if_pos hu, List.filter_cons, if_pos hpe, getLast?_cons_or,
        Option.or_assoc, Option.or_some]
    · have hpe : (e.detail_url == u) = false := by simp [hu]
      rw [if_neg hu, List.filter_cons, if_neg (by simp [hpe])]

theorem dedup_nodup_from : ∀ (l acc : List Cand),
    ((acc.map Cand.detail_url).Nodup) →
      (((l.foldl dedupInsert acc).map Cand.detail_url).Nodup) := by
  intro l
  induction l with
  | nil => intro acc h; exact h
  | cons e l ih =>
    intro acc h
    exact ih (dedupInsert acc e) (dedupInsert_map_url_nodup e h)

/-! ## Claim theorems: listing deduplication -/

/-- C3: `parse_events` returns at most one candidate per `detail_url` (the
returned URLs are pairwise distinct), and the candidate returned for a URL is
exactly the last-occurring accepted candidate with that URL in document order
(hence carries its `title` and `city`). -/
theorem C3_dedup_last_wins (soup : List Node) (baseUrl : String) :
    ((parseEvents soup baseUrl).map Cand.detail_url).Nodup
    ∧ ∀ u : String,
        (parseEvents soup baseUrl).find? (fun c => c.detail_url == u)
          = ((listingCandidates soup baseUrl).filter
              (fun c => c.detail_url == u)).getLast? := by
  constructor
  · exact dedup_nodup_from (listingCandidates soup baseUrl) [] (by simp)
  · intro u
    have h := dedup_find_from u (listingCandidates soup baseUrl) []
    simpa [Option.or_none] using h

/-! ## Claim theorems: location extraction -/

/-- C4: the location of a parsed detail page is never empty: the
heading-derived text (siblings of the "kde" heading up to the next heading,
joined with `", "`) is used when nonempty; an empty result falls back to the
listing city when that is a nonempty string, and otherwise to the literal
sentinel `"Neuvedeno"`. -/
theorem C4_location_never_empty (soup : List Node) (city : Option String) :
    extractLocation soup city ≠ ""
    ∧ (locFromWhere soup = "" → extractLocation soup city = cityFallback city)
    ∧ cityFallback none = "Neuvedeno"
    ∧ (∀ c : String, c ≠ "" → cityFallback (some c) = c)
    ∧ cityFallback (some "") = "Neuvedeno" := by
  refine ⟨?_, ?_, rfl, ?_, rfl⟩
  · simp only [extractLocation]
    by_cases hl : locFromWhere soup = ""
    · rw [if_pos hl]
      cases city with
      | none => simp only [cityFallback]; decide
      | some c =>
        by_cases hc : c = ""
        · subst hc; simp only [cityFallback, if_pos rfl]; decide
        · simp only [cityFallback, if_neg hc]; exact hc
    · rw [if_neg hl]; exact hl
  · intro hl
    simp only [extractLocation]
    rw [if_pos hl]
  · intro c hc
    simp [cityFallback, hc]

/-- Witness for C4: a page with no "kde" heading and city `"Praha"` falls back
to the city. -/
theorem C4_location_never_empty_witness :
    extractLocation [] (some "Praha") = cityFallback (some "Praha")
    ∧ cityFallback (some "Praha") = "Praha" :=
  ⟨(C4_location_never_empty [] (some "Praha")).2.1 rfl,
    (C4_location_never_empty [] (some "Praha")).2.2.2.1 "Praha" (by decide)⟩

/-! ## Claim theorems: the date/time cascade -/

/-- C5: on a page with a single (nonempty or empty) "kdy" block,
`_extract_datetime` is exactly the documented cascade — block text with
explicit year, block text with borrowed year, whole-page text with explicit
year, whole-page numeric date, in that order, first success winning — and on
the decoy scenario page (dateless "1. března" in the `h1`, dated "Kdy:"
block) the result is 2026-03-01 16:00. -/
theorem C5_cascade_order (soup : List Node) (b : String)
    (hb : (whenBlocksL soup).map blockSearchText = [b]) :
    extractDatetime soup = specDateCascade b (getTextAll soup)
    ∧ extractDatetime cascadeScenarioPage = .ok ⟨2026, 3, 1, 16, 0⟩ := by
  constructor
  · simp only [extractDatetime, hb]
    by_cases hb0 : b = ""
    · subst hb0
      have h1 : findValidDatetimeWithYear "" = none := rfl
      have h2 : findValidDatetimeWithoutYear "" (getTextAll soup) = none := by
        unfold findValidDatetimeWithoutYear
        cases firstYearToken (getTextAll soup) <;> rfl
      simp only [kdyLoop, specDateCascade, h1, h2]
      simp
    · simp only [kdyLoop, if_neg hb0]
      cases hwy : findValidDatetimeWithYear b with
      | some d => simp [specDateCascade, hwy]
      | none =>
        cases hny : findValidDatetimeWithoutYear b (getTextAll soup) with
        | some d => simp [specDateCascade, hwy, hny, kdyLoop]
        | none => simp [specDateCascade, hwy, hny, kdyLoop]
  · rfl

/-- Witness for C5 at the scenario page, whose single "kdy" block is the dated
line. -/
theorem C5_cascade_order_witness :
    extractDatetime cascadeScenarioPage
      = specDateCascade " 1. března 2026, v 16:00 hodin"
          (getTextAll cascadeScenarioPage)
    ∧ extractDatetime cascadeScenarioPage = .ok ⟨2026, 3, 1, 16, 0⟩ :=
  C5_cascade_order cascadeScenarioPage " 1. března 2026, v 16:00 hodin" rfl

/-! ## Helper lemmas: the borrowed year -/

theorem mkDatetime_year {y m d h mi : Nat} {dt : Datetime}
    (hk : mkDatetime y m d h mi = some dt) : dt.year = y := by
  unfold mkDatetime at hk
  split at hk
  · cases hk; rfl
  · cases hk

theorem buildDatetime_year {y : Nat} {mon : String} {d h mi : Nat}
    {dt : Datetime} (hk : buildDatetime y mon d h mi = some dt) :
    dt.year = y := by
  unfold buildDatetime at hk
  rcases hm : monthsLookup (lowerStr (stripDiacritics mon)) with _ | m
  · rw [hm] at hk; cases hk
  · rw [hm] at hk; exact mkDatetime_year hk

theorem scanNoYear_year {y : Nat} {dt : Datetime} :
    ∀ (fuel : Nat) (s : List Char), scanNoYear y fuel s = some dt →
      dt.year = y := by
  intro fuel
  induction fuel with
  | zero =>
    intro s h
    cases s with
    | nil => rw [show scanNoYear y 0 [] = none from rfl] at h; cases h
    | cons c rest =>
      rw [show scanNoYear y 0 (c :: rest) = none from rfl] at h
      cases h
  | succ f ih =>
    intro s h
    cases s with
    | nil =>
      rw [show scanNoYear y (f + 1) [] = none from rfl] at h
      cases h
    | cons c rest =>
      rw [scanNoYear] at h
      split at h
      · split at h
        · rename_i d0 hbd
          cases h
          exact buildDatetime_year hbd
        · exact ih _ h
      · exact ih _ h

/-- C6: whenever the without-year strategy succeeds, the year of the returned
datetime is precisely the first 4-digit `20xx` word-bounded token of the
whole-page text (`_YEAR_RE.search`); and the missing-year scenario page (block
`14. února, v 15:00 hodin`, token `2026` elsewhere) resolves to
2026-02-14 15:00. -/
theorem C6_year_borrowed (text fullText : String) (dt : Datetime)
    (h : findValidDatetimeWithoutYear text fullText = some dt) :
    firstYearToken fullText = some dt.year
    ∧ extractDatetime borrowedYearScenarioPage = .ok ⟨2026, 2, 14, 15, 0⟩ := by
  constructor
  · unfold findValidDatetimeWithoutYear at h
    split at h
    · cases h
    · rename_i y hy
      rw [scanNoYear_year _ _ h]
      exact hy
  · rfl

/-- Witness for C6 at a concrete block and page text. -/
theorem C6_year_borrowed_witness :
    firstYearToken "Karol 2026"
      = some (Datetime.year ⟨2026, 2, 14, 15, 0⟩)
    ∧ extractDatetime borrowedYearScenarioPage = .ok ⟨2026, 2, 14, 15, 0⟩ :=
  C6_year_borrowed "14. února, v 15:00 hodin" "Karol 2026"
    ⟨2026, 2, 14, 15, 0⟩ rfl

end Karolakvido









